import Mathlib

set_option maxRecDepth 8192

/-!
Verification of the TaskWeaver sidecar orchestration core
(`src/agents/taskweaver/server.py`).

The development shallowly embeds the run/event orchestration core:

* JSON request/response values (`JsonV`) with Python truthiness (`pyTruthy`),
  since the handlers validate fields with `not x` and default with `x or d`;
* domain events (`Ev`) as appended to the per-run queues;
* the bounded per-run queue `deque(maxlen=500)` as `dequePush`;
* the `/tw/run` coordinator (`tw_run`) including the advisory backend call
  (`step1Events`), the keyword classifier (`is_actionable`), the planner stub
  and the background execution sequence;
* the `/tw/events/{run_id}` stream generator as a trace model
  (`qstep` / `subscriber_stream`);
* the `/tw/tool-call` gateway (`tw_tool_call`) together with a model of
  `JSONResponse` construction over `json.dumps`;
* the `/tw/tool-result` sink (`tw_tool_result`).

String-valued identifiers (`runId`, `goal`, `tool`, `name`) are modelled as
`String`, with the empty string standing for an absent (`None`) field: for
strings, Python falsiness (`not x`) coincides on `None` and `""`, which is the
only way these fields are inspected before use.
-/

namespace StudioSix

/-- JSON values as parsed from request/response bodies.  Numbers are modelled
as rationals (the source only ever stores and forwards numeric literals such
as `4`, `5`, `2.7`; it never computes with them). -/
inductive JsonV where
  | null
  | bool (b : Bool)
  | num (q : Rat)
  | str (s : String)
  | arr (elems : List JsonV)
  | obj (fields : List (String × JsonV))

/-- Python truthiness of a JSON value: `None`, `False`, `0`, `""`, `[]` and
an empty object are falsy, everything else is truthy.  This is the semantics
of `not x` and `x or d` applied to decoded JSON values in the handlers. -/
def pyTruthy : JsonV → Bool
  | .null => false
  | .bool b => b
  | .num q => if q = 0 then false else true
  | .str s => if s = "" then false else true
  | .arr elems => if elems.isEmpty then false else true
  | .obj fields => if fields.isEmpty then false else true

/-- Python `a or b` on JSON values: `a` when truthy, else `b`. -/
def pyOr (a b : JsonV) : JsonV := if pyTruthy a then a else b

/-- Python `dict.get(k)` on a decoded JSON object: the bound value, or `None`
(`JsonV.null`) when the key is absent. -/
def dictGet (fields : List (String × JsonV)) (k : String) : JsonV :=
  match fields with
  | [] => .null
  | (k2, v) :: rest => if k2 = k then v else dictGet rest k

/-- Domain events appended to a run queue.  Each corresponds to one of the
dict shapes built by `server.py`: `assistant` carries `content`; `plan`
carries `summary` and `steps`; `act` carries `status`, `tool` and either
`args` (for `status="start"`) or `result` (for `status="result"`), both held
in `payload`; `done` carries `status`; `error` carries `code`, `title`,
`hint`. -/
inductive Ev where
  | assistant (content : String)
  | plan (summary : String) (steps : List String)
  | act (status : String) (tool : String) (payload : JsonV)
  | done (status : String)
  | error (code : String) (title : String) (hint : String)

/-- Capacity of each per-run queue: `deque(maxlen=500)`. -/
def QMAX : Nat := 500

/-- One `append` on a `collections.deque` with `maxlen=500`: when the deque
is full the oldest (leftmost) entry is silently evicted before the new event
is appended on the right. -/
def dequePush (q : List Ev) (e : Ev) : List Ev :=
  if q.length < QMAX then q ++ [e] else q.tail ++ [e]

/-- Boolean substring test on character lists, the semantics of Python
`needle in haystack` for strings. -/
def containsSub (needle : List Char) : List Char → Bool
  | [] => needle.isEmpty
  | c :: rest => List.isPrefixOf needle (c :: rest) || containsSub needle rest

/-- The fixed actionable vocabulary from `tw_run.is_actionable`. -/
def twKeywords : List String :=
  ["create", "build", "add", "draw", "make", "generate", "insert",
   "room", "wall", "door", "window", "column", "beam", "roof", "stair", "slab",
   "render", "token", "openings", "partition"]

/-- Python `text.lower()` on the goal's characters (`str.lower` per
character; the vocabulary below is pure ASCII). -/
def lowerChars (cs : List Char) : List Char := cs.map Char.toLower

/-- The `is_actionable` intent heuristic: false on empty text, otherwise a
case-insensitive substring match of any keyword against the goal. -/
def is_actionable (text : String) : Bool :=
  if text = "" then false
  else twKeywords.any (fun k => containsSub k.toList (lowerChars text.toList))

/-- Fallback assistant line enqueued when the advisory backend call raises. -/
def fallbackLine : String := "Got it. I\x27ll help with that."

/-- Default acknowledgement used when a 200 reply carries neither a truthy
`response` nor a truthy `message` field. -/
def defaultAck : String := "I understand. I\x27ll plan the steps next."

/-- Outcome of the single advisory POST to `NODE_URL/api/ai-chat`: a decoded
200 body, a completed response with a status other than 200, or a raised
exception (network error, timeout, or any other error inside the `try`). -/
inductive BackendOutcome where
  | ok (data : JsonV)
  | httpFail (status : Nat)
  | exn

/-- Assistant content produced from a decoded 200 reply: `data.get("response")
or data.get("message") or defaultAck`.  A non-string truthy content makes the
subsequent `preview` line raise inside the `try` and land in the `except`
branch, as does a non-object body (`data.get` raises), so those cases yield
the fallback line. -/
def okContent (data : JsonV) : String :=
  match data with
  | .obj fields =>
      match pyOr (dictGet fields "response")
              (pyOr (dictGet fields "message") (.str defaultAck)) with
      | .str content => content
      | _ => fallbackLine
  | _ => fallbackLine

/-- Events enqueued by step 1 of `tw_run` (the advisory backend call), by
outcome.  On a 200 reply the extracted content is enqueued as an `assistant`
event.  On a completed non-200 reply the handler only logs — no event is
enqueued.  On an exception the `except` branch enqueues the fallback
assistant line. -/
def step1Events : BackendOutcome → List Ev
  | .ok data => [.assistant (okContent data)]
  | .httpFail _ => []
  | .exn => [.assistant fallbackLine]

/-- The planner stub's fixed tool choice. -/
def chosen_tool : String := "geometry.createRoom"

/-- The fixed argument object of the simulated step. -/
def defaultArgs : JsonV :=
  .obj [("width", .num 4), ("depth", .num 5), ("height", .num (27/10))]

/-- The `plan` event enqueued for an actionable goal. -/
def planEvent (goal : String) : Ev :=
  .plan ("Plan for: " ++ goal) [chosen_tool]

/-- The `act(status=start)` event enqueued by the background loop. -/
def actStartEvent : Ev := .act "start" chosen_tool defaultArgs

/-- Follow-up assistant line enqueued by the background loop. -/
def followupLine : String :=
  "First step completed. Would you like me to partition into two bedrooms and add doors/windows?"

/-- Terminal success event. -/
def doneSuccess : Ev := .done "success"

/-- The events enqueued by `background_loop` in order: `act(start)`, the
follow-up assistant line after the grace sleep, then `done(success)`.  (The
`except` branch of the loop is unreachable for these three awaits.) -/
def backgroundEvents : List Ev :=
  [actStartEvent, .assistant followupLine, doneSuccess]

/-- A start-run request body after `body.get(...)`: `runId` and `goal` with
`""` for an absent field, pass-through `context` and `model`, and the raw
optional `maxSteps` field (`body.get("maxSteps", 12)` applies the default). -/
structure RunRequest where
  runId : String
  goal : String
  context : JsonV
  model : JsonV
  maxSteps : Option JsonV

/-- Result of `tw_run`: a 400 for a missing field, or acceptance carrying the
events enqueued synchronously before the `{runId}` response is returned and,
when a background task was spawned, the events that task enqueues. -/
inductive RunResult where
  | invalidRequest
  | accepted (runId : String) (syncEvents : List Ev) (bg : Option (List Ev))

/-- The `/tw/run` handler after authentication, as a function of the request
body and of the advisory call's outcome: validate `runId`/`goal` by
falsiness, run step 1, then either terminate the run (`done(success)`, no
background task) for a non-actionable goal, or enqueue the `plan` event and
spawn the background loop. -/
def tw_run (req : RunRequest) (outcome : BackendOutcome) : RunResult :=
  if req.runId = "" ∨ req.goal = "" then .invalidRequest
  else
    let s1 := step1Events outcome
    if !(is_actionable req.goal) then
      .accepted req.runId (s1 ++ [doneSuccess]) none
    else
      .accepted req.runId (s1 ++ [planEvent req.goal]) (some backgroundEvents)

/-- All events a `tw_run` result ever enqueues for its run (synchronous part
followed by the background task's part). -/
def runEvents : RunResult → List Ev
  | .invalidRequest => []
  | .accepted _ syncEvents bg => syncEvents ++ bg.getD []

/-- Effect of one `/tw/run` call on the `RUN_QUEUES` map (runs' queues keyed
by run identifier, absent queues read as empty by `defaultdict`). -/
def tw_run_queues (queues : String → List Ev) (req : RunRequest)
    (outcome : BackendOutcome) : String → List Ev :=
  match tw_run req outcome with
  | .invalidRequest => queues
  | .accepted rid syncEvents bg =>
      fun r =>
        if r = rid then List.foldl dequePush (queues rid) (syncEvents ++ bg.getD [])
        else queues r

/-- One operation on a single run's queue: an enqueue (from the run
coordinator, the background loop, or the tool-result sink) or one
`popleft` by the stream generator's drain loop (a no-op on an empty
queue; the generator only pops under `while queue`). -/
inductive QOp where
  | enq (e : Ev)
  | deq

/-- Effect of one queue operation on (queue, delivered-so-far). -/
def qstep : List Ev × List Ev → QOp → List Ev × List Ev
  | (q, out), .enq e => (dequePush q e, out)
  | (q, out), .deq =>
      match q with
      | [] => ([], out)
      | e :: rest => (rest, out ++ [e])

/-- State of one run's queue after an interleaved schedule of enqueues and
single pops, starting from the lazily created empty queue. -/
def runTrace (ops : List QOp) : List Ev × List Ev :=
  List.foldl qstep ([], []) ops

/-- The events the stream generator has yielded, in order, after `ops`. -/
def delivered (ops : List QOp) : List Ev := (runTrace ops).2

/-- The events still buffered after `ops`. -/
def pending (ops : List QOp) : List Ev := (runTrace ops).1

/-- The events enqueued by `ops`, in enqueue order. -/
def enqueuedOf (ops : List QOp) : List Ev :=
  ops.filterMap (fun op => match op with | .enq e => some e | .deq => none)

/-- Items yielded on the SSE channel: the synthetic heartbeat, or a domain
event serialised from the queue. -/
inductive SItem where
  | heartbeat
  | ev (e : Ev)

/-- The sequence of items `event_generator` yields to one subscriber whose
session performs the schedule `ops`: the initial heartbeat yield, then each
popped event in pop order. -/
def subscriber_stream (ops : List QOp) : List SItem :=
  SItem.heartbeat :: (delivered ops).map SItem.ev

/-- Order-preserving interleaving of two lists. -/
inductive Interleaved : List (List Ev) → List (List Ev) → List (List Ev) → Prop where
  | nil : Interleaved [] [] []
  | left {a : List Ev} {as2 bs cs : List (List Ev)} :
      Interleaved as2 bs cs → Interleaved (a :: as2) bs (a :: cs)
  | right {b : List Ev} {as2 bs cs : List (List Ev)} :
      Interleaved as2 bs cs → Interleaved as2 (b :: bs) (b :: cs)

/-- The atomic groups of enqueues the coordinator performs for an actionable
goal, in program order.  Groups are split at every suspension point of the
handler and its background task (the awaited backend call and client
shutdown, task scheduling, and the grace `asyncio.sleep`); the final
follow-up assistant line and `done(success)` are enqueued with no
intervening await and therefore form one atomic group.  Splitting the step-1
events into singleton groups is a sound over-approximation of the
scheduler. -/
def runGroups (goal : String) (outcome : BackendOutcome) : List (List Ev) :=
  ((step1Events outcome).map (fun e => [e]))
    ++ [[planEvent goal], [actStartEvent], [.assistant followupLine, doneSuccess]]

/-- `seq` is a possible enqueue order for an actionable run interleaved with
tool-result injections `injs` (each injection is a single atomic enqueue,
and injections keep their arrival order among themselves). -/
def IsEnqueueSeq (goal : String) (outcome : BackendOutcome)
    (injs : List Ev) (seq : List Ev) : Prop :=
  ∃ gs, Interleaved (runGroups goal outcome) (injs.map (fun e => [e])) gs
    ∧ seq = gs.flatten

/-- Python runtime values that can reach `json.dumps` in this code: the raw
bytes of the downstream reply, or JSON-like values. -/
inductive PyVal where
  | pyBytes (data : List Nat)
  | pyNone
  | pyBool (b : Bool)
  | pyNum (q : Rat)
  | pyStr (s : String)
  | pyList (elems : List PyVal)
  | pyDict (fields : List (String × PyVal))

mutual

/-- Whether `json.dumps` accepts the value: `bytes` objects raise
`TypeError` (bytes are not JSON serialisable); `None`, booleans, numbers,
strings, and lists/dicts of serialisable values are accepted. -/
def json_serializable : PyVal → Bool
  | .pyBytes _ => false
  | .pyNone => true
  | .pyBool _ => true
  | .pyNum _ => true
  | .pyStr _ => true
  | .pyList elems => json_serializable_list elems
  | .pyDict fields => json_serializable_fields fields

/-- Serialisability of every element of a list value. -/
def json_serializable_list : List PyVal → Bool
  | [] => true
  | x :: rest => json_serializable x && json_serializable_list rest

/-- Serialisability of every field value of a dict value. -/
def json_serializable_fields : List (String × PyVal) → Bool
  | [] => true
  | (_, v) :: rest => json_serializable v && json_serializable_fields rest

end

/-- Constructing `JSONResponse(content)`: `Response.__init__` renders the
body via `json.dumps` at construction time, so a non-serialisable content
raises before any response is produced (modelled as `none`). -/
def JSONResponse_body (content : PyVal) : Option PyVal :=
  if json_serializable content then some content else none

/-- Outcome of `/tw/tool-call` as seen by its caller: a 400 for a missing
name, a relayed response, or an unhandled exception surfacing as an
internal server error. -/
inductive ToolCallOutcome where
  | invalidRequest
  | response (status : Nat) (content : PyVal)
  | internalError

/-- The `/tw/tool-call` handler after authentication, as a function of the
request's tool `name` and of the downstream executor's reply (status code
and raw body bytes from `resp.aread()`): validate the name, then build
`JSONResponse(raw_bytes, status_code=...)`. -/
def tw_tool_call (name : String) (downStatus : Nat) (downBody : List Nat) :
    ToolCallOutcome :=
  if name = "" then .invalidRequest
  else
    match JSONResponse_body (.pyBytes downBody) with
    | some c => .response downStatus c
    | none => .internalError

/-- The default success marker `{"ok": True}` of the tool-result sink. -/
def okMarker : JsonV := .obj [("ok", .bool true)]

/-- Outcome of `/tw/tool-result`: a 400 for a missing field, or the
`act(status=result)` event injected into the run's queue. -/
inductive ToolResultOutcome where
  | invalidRequest
  | enqueued (e : Ev)

/-- The `/tw/tool-result` handler after authentication: validate
`runId`/`tool` by falsiness, then enqueue an `act(status=result)` event
whose payload is `result or {"ok": True}`. -/
def tw_tool_result (runId tool : String) (result : JsonV) : ToolResultOutcome :=
  if runId = "" ∨ tool = "" then .invalidRequest
  else .enqueued (.act "result" tool (pyOr result okMarker))

/-! ### Lemmas about the bounded queue -/

/-- One bounded append never grows a queue beyond capacity. -/
theorem dequePush_length_le {q : List Ev} (h : q.length ≤ QMAX) (e : Ev) :
    (dequePush q e).length ≤ QMAX := by
  unfold dequePush
  by_cases hlt : q.length < QMAX
  · rw [if_pos hlt]
    simp only [List.length_append, List.length_cons, List.length_nil]
    omega
  · rw [if_neg hlt]
    cases q with
    | nil => exact absurd (by decide) hlt
    | cons a t =>
        simp only [List.tail_cons, List.length_append, List.length_cons,
          List.length_nil] at h ⊢
        omega

/-- Folding bounded appends over a queue within capacity keeps exactly the
most recent `QMAX` entries of the combined history. -/
theorem foldl_dequePush_eq_drop (evs : List Ev) :
    ∀ q : List Ev, q.length ≤ QMAX →
      List.foldl dequePush q evs = (q ++ evs).drop (q.length + evs.length - QMAX) := by
  induction evs with
  | nil =>
      intro q h
      simp only [List.foldl_nil, List.append_nil, List.length_nil, Nat.add_zero]
      rw [Nat.sub_eq_zero_of_le h, List.drop_zero]
  | cons e rest ih =>
      intro q h
      rw [List.foldl_cons, ih _ (dequePush_length_le h e)]
      by_cases hlt : q.length < QMAX
      · have hd : dequePush q e = q ++ [e] := by
          unfold dequePush
          rw [if_pos hlt]
        rw [hd]
        simp only [List.append_assoc, List.singleton_append, List.length_append,
          List.length_cons, List.length_nil, Nat.zero_add]
        have h3 : q.length + 1 + rest.length - QMAX
            = q.length + (rest.length + 1) - QMAX := by omega
        rw [h3]
      · have hq : q.length = QMAX := Nat.le_antisymm h (Nat.le_of_not_lt hlt)
        cases q with
        | nil => exact absurd (by decide) hlt
        | cons h0 t =>
            have hd : dequePush (h0 :: t) e = t ++ [e] := by
              unfold dequePush
              rw [if_neg hlt]
              rfl
            rw [hd]
            simp only [List.append_assoc, List.singleton_append, List.cons_append,
              List.length_append, List.length_cons, List.length_nil, Nat.zero_add,
              List.nil_append]
            simp only [List.length_cons] at hq
            have h1 : t.length + 1 + rest.length - QMAX = rest.length := by omega
            have h2 : t.length + 1 + (rest.length + 1) - QMAX = rest.length + 1 := by
              omega
            rw [h1, h2, List.drop_succ_cons]

/-- C3: enqueueing more than 500 events onto any within-capacity run queue
leaves exactly the 500 most recently enqueued events, the oldest entries
having been evicted (the final queue is a suffix of the history, never
missing a newer entry in favour of an older one). -/
theorem C3_queue_capacity (q evs : List Ev) (hq : q.length ≤ QMAX)
    (h : QMAX < evs.length) :
    List.foldl dequePush q evs = evs.drop (evs.length - QMAX)
    ∧ (List.foldl dequePush q evs).length = QMAX
    ∧ List.foldl dequePush q evs <:+ q ++ evs := by
  have hmain : List.foldl dequePush q evs
      = (q ++ evs).drop (q.length + evs.length - QMAX) :=
    foldl_dequePush_eq_drop evs q hq
  have hidx : q.length + evs.length - QMAX = q.length + (evs.length - QMAX) := by
    omega
  have hdrop : List.foldl dequePush q evs = evs.drop (evs.length - QMAX) := by
    rw [hmain, hidx, ← List.drop_drop, List.drop_left]
  refine ⟨hdrop, ?_, ?_⟩
  · rw [hdrop, List.length_drop]
    omega
  · rw [hdrop]
    exact (List.drop_suffix _ _).trans (List.suffix_append q evs)

/-- Witness for C3 at a concrete 501-event burst. -/
theorem C3_queue_capacity_witness :
    (([] : List Ev)).length ≤ QMAX
    ∧ QMAX < (List.replicate 501 doneSuccess).length
    ∧ (List.foldl dequePush [] (List.replicate 501 doneSuccess)
          = (List.replicate 501 doneSuccess).drop
              ((List.replicate 501 doneSuccess).length - QMAX)
        ∧ (List.foldl dequePush [] (List.replicate 501 doneSuccess)).length = QMAX
        ∧ List.foldl dequePush [] (List.replicate 501 doneSuccess)
            <:+ [] ++ List.replicate 501 doneSuccess) :=
  ⟨by simp, by rw [List.length_replicate]; decide,
    C3_queue_capacity [] (List.replicate 501 doneSuccess) (by simp)
      (by rw [List.length_replicate]; decide)⟩

/-! ### FIFO delivery and heartbeat-first streaming -/

/-- Invariant of the drain/enqueue interleaving: whatever has been yielded
followed by whatever is still buffered is an order-preserving subsequence of
the full enqueue history. -/
theorem qstep_fold_sublist (ops : List QOp) :
    ∀ q out : List Ev,
      List.Sublist
        ((List.foldl qstep (q, out) ops).2 ++ (List.foldl qstep (q, out) ops).1)
        ((out ++ q) ++ enqueuedOf ops) := by
  induction ops with
  | nil =>
      intro q out
      simp [enqueuedOf]
  | cons op rest ih =>
      intro q out
      cases op with
      | enq e =>
          have h := ih (dequePush q e) out
          have hstep : List.foldl qstep (q, out) (QOp.enq e :: rest)
              = List.foldl qstep (dequePush q e, out) rest := rfl
          rw [hstep]
          refine h.trans ?_
          have henq : enqueuedOf (QOp.enq e :: rest) = e :: enqueuedOf rest := rfl
          rw [henq]
          by_cases hlt : q.length < QMAX
          · have hd : dequePush q e = q ++ [e] := by
              unfold dequePush
              rw [if_pos hlt]
            rw [hd]
            simp [List.append_assoc]
          · have hd : dequePush q e = q.tail ++ [e] := by
              unfold dequePush
              rw [if_neg hlt]
            rw [hd]
            have h1 : List.Sublist (q.tail ++ ([e] ++ enqueuedOf rest))
                (q ++ ([e] ++ enqueuedOf rest)) :=
              (List.tail_sublist q).append_right _
            have h2 := h1.append_left out
            simpa [List.append_assoc] using h2
      | deq =>
          cases q with
          | nil =>
              have hstep : List.foldl qstep (([] : List Ev), out) (QOp.deq :: rest)
                  = List.foldl qstep ([], out) rest := rfl
              rw [hstep]
              have h := ih [] out
              have henq : enqueuedOf (QOp.deq :: rest) = enqueuedOf rest := rfl
              rw [henq]
              exact h
          | cons e qr =>
              have hstep : List.foldl qstep ((e :: qr), out) (QOp.deq :: rest)
                  = List.foldl qstep (qr, out ++ [e]) rest := rfl
              rw [hstep]
              have h := ih qr (out ++ [e])
              have henq : enqueuedOf (QOp.deq :: rest) = enqueuedOf rest := rfl
              rw [henq]
              refine h.trans ?_
              simp [List.append_assoc]

/-- Exactness below capacity: while the total number of enqueues fits the
queue bound, nothing is ever evicted, so yielded-then-buffered equals the
enqueue history exactly. -/
theorem qstep_fold_exact (ops : List QOp) :
    ∀ q out : List Ev, q.length + (enqueuedOf ops).length ≤ QMAX →
      (List.foldl qstep (q, out) ops).2 ++ (List.foldl qstep (q, out) ops).1
        = (out ++ q) ++ enqueuedOf ops := by
  induction ops with
  | nil =>
      intro q out h
      simp [enqueuedOf]
  | cons op rest ih =>
      intro q out h
      cases op with
      | enq e =>
          have henq : enqueuedOf (QOp.enq e :: rest) = e :: enqueuedOf rest := rfl
          rw [henq] at h
          simp only [List.length_cons] at h
          have hlt : q.length < QMAX := by omega
          have hd : dequePush q e = q ++ [e] := by
            unfold dequePush
            rw [if_pos hlt]
          have hstep : List.foldl qstep (q, out) (QOp.enq e :: rest)
              = List.foldl qstep (dequePush q e, out) rest := rfl
          rw [hstep, hd]
          have hlen : (q ++ [e]).length + (enqueuedOf rest).length ≤ QMAX := by
            simp only [List.length_append, List.length_cons, List.length_nil]
            omega
          rw [ih (q ++ [e]) out hlen, henq]
          simp [List.append_assoc]
      | deq =>
          have henq : enqueuedOf (QOp.deq :: rest) = enqueuedOf rest := rfl
          rw [henq] at h ⊢
          cases q with
          | nil =>
              have hstep : List.foldl qstep (([] : List Ev), out) (QOp.deq :: rest)
                  = List.foldl qstep ([], out) rest := rfl
              rw [hstep]
              exact ih [] out (by simpa using h)
          | cons e qr =>
              have hstep : List.foldl qstep ((e :: qr), out) (QOp.deq :: rest)
                  = List.foldl qstep (qr, out ++ [e]) rest := rfl
              rw [hstep]
              have hlen : qr.length + (enqueuedOf rest).length ≤ QMAX := by
                simp only [List.length_cons] at h
                omega
              rw [ih qr (out ++ [e]) hlen]
              simp [List.append_assoc]

/-- C4: for every interleaved schedule of enqueues (from the coordinator,
the background loop, or the tool-result sink) and stream-generator pops, the
delivered events are an order-preserving subsequence of the enqueue order —
FIFO delivery — and, as long as the enqueue history fits the queue bound,
delivered-then-pending is exactly the enqueue history. -/
theorem C4_fifo (ops : List QOp) :
    List.Sublist (delivered ops) (enqueuedOf ops)
    ∧ ((enqueuedOf ops).length ≤ QMAX →
        delivered ops ++ pending ops = enqueuedOf ops) := by
  constructor
  · have h := qstep_fold_sublist ops [] []
    simp only [List.append_nil, List.nil_append] at h
    exact (List.sublist_append_left (delivered ops) (pending ops)).trans h
  · intro hlen
    have h := qstep_fold_exact ops [] [] (by simpa using hlen)
    simpa using h

/-- Witness for C4 at a concrete schedule with a tool-result injection
between two pops. -/
theorem C4_fifo_witness :
    (enqueuedOf [QOp.enq (Ev.assistant "hi"), QOp.deq,
        QOp.enq (Ev.act "result" "geometry.createRoom" okMarker), QOp.deq]).length
      ≤ QMAX
    ∧ (List.Sublist
        (delivered [QOp.enq (Ev.assistant "hi"), QOp.deq,
          QOp.enq (Ev.act "result" "geometry.createRoom" okMarker), QOp.deq])
        (enqueuedOf [QOp.enq (Ev.assistant "hi"), QOp.deq,
          QOp.enq (Ev.act "result" "geometry.createRoom" okMarker), QOp.deq])
      ∧ ((enqueuedOf [QOp.enq (Ev.assistant "hi"), QOp.deq,
            QOp.enq (Ev.act "result" "geometry.createRoom" okMarker), QOp.deq]).length
            ≤ QMAX →
          delivered [QOp.enq (Ev.assistant "hi"), QOp.deq,
              QOp.enq (Ev.act "result" "geometry.createRoom" okMarker), QOp.deq]
            ++ pending [QOp.enq (Ev.assistant "hi"), QOp.deq,
              QOp.enq (Ev.act "result" "geometry.createRoom" okMarker), QOp.deq]
            = enqueuedOf [QOp.enq (Ev.assistant "hi"), QOp.deq,
              QOp.enq (Ev.act "result" "geometry.createRoom" okMarker), QOp.deq])) :=
  ⟨by simp [enqueuedOf, QMAX],
    C4_fifo [QOp.enq (Ev.assistant "hi"), QOp.deq,
      QOp.enq (Ev.act "result" "geometry.createRoom" okMarker), QOp.deq]⟩

/-- C5: every subscription's stream starts with the synthetic heartbeat —
emitted before any buffered domain event, for every schedule, including the
empty one (a run whose queue is empty or was never written). -/
theorem C5_heartbeat_first (ops : List QOp) :
    (subscriber_stream ops).head? = some SItem.heartbeat
    ∧ ∀ i e, (subscriber_stream ops)[i]? = some (SItem.ev e) → 0 < i := by
  constructor
  · rfl
  · intro i e hi
    cases i with
    | zero => simp [subscriber_stream] at hi
    | succ n => exact Nat.succ_pos n

/-! ### The advisory call's failure handling and the chat-only path -/

/-- Whether an event is a `plan` event. -/
def Ev.isPlan : Ev → Bool
  | .plan _ _ => true
  | _ => false

/-- Whether an event is an `act` event. -/
def Ev.isAct : Ev → Bool
  | .act _ _ _ => true
  | _ => false

/-- Step 1 enqueues either a single assistant event, or — exactly when the
advisory reply completed with a non-200 status — nothing at all. -/
theorem step1Events_shape (outcome : BackendOutcome) :
    (∃ s, step1Events outcome = [Ev.assistant s])
    ∨ ((∃ c, outcome = BackendOutcome.httpFail c) ∧ step1Events outcome = []) := by
  cases outcome with
  | ok data => exact Or.inl ⟨okContent data, rfl⟩
  | httpFail c => exact Or.inr ⟨⟨c, rfl⟩, rfl⟩
  | exn => exact Or.inl ⟨fallbackLine, rfl⟩

/-- A valid request whose advisory call completed with HTTP 500. -/
def reqHello : RunRequest :=
  { runId := "r1", goal := "hello there", context := .obj [], model := .null,
    maxSteps := none }

/-- C1 counterexample: on a non-2xx advisory status (HTTP 500) no fallback
`assistant` event is enqueued — the run's whole event sequence is just
`done(success)`, with no assistant event at all. -/
theorem C1_counterexample :
    runEvents (tw_run reqHello (BackendOutcome.httpFail 500)) = [doneSuccess]
    ∧ ∀ s, Ev.assistant s ∉ runEvents (tw_run reqHello (BackendOutcome.httpFail 500)) := by
  have h : runEvents (tw_run reqHello (BackendOutcome.httpFail 500)) = [doneSuccess] := by
    rfl
  refine ⟨h, ?_⟩
  intro s hs
  rw [h] at hs
  simp [doneSuccess] at hs

/-- C1 (amended): an advisory-call failure never fails the run; when the
call raises (network error, timeout, or any exception) the generic fallback
assistant event is enqueued in place of the backend's reply, but when the
call completes with a non-200 status nothing is enqueued for the advisory
step — the failure is only logged and the run continues. -/
theorem C1_amended (req : RunRequest) (outcome : BackendOutcome)
    (hv : ¬(req.runId = "" ∨ req.goal = "")) :
    tw_run req outcome ≠ RunResult.invalidRequest
    ∧ (outcome = BackendOutcome.exn →
        step1Events outcome = [Ev.assistant fallbackLine])
    ∧ (∀ c, outcome = BackendOutcome.httpFail c → step1Events outcome = [])
    ∧ ∃ rest bg, tw_run req outcome
        = RunResult.accepted req.runId (step1Events outcome ++ rest) bg := by
  have hrun : tw_run req outcome
      = if !(is_actionable req.goal) then
          RunResult.accepted req.runId (step1Events outcome ++ [doneSuccess]) none
        else
          RunResult.accepted req.runId (step1Events outcome ++ [planEvent req.goal])
            (some backgroundEvents) := by
    unfold tw_run
    rw [if_neg hv]
  refine ⟨?_, ?_, ?_, ?_⟩
  · rw [hrun]
    by_cases hact : is_actionable req.goal <;> simp [hact]
  · intro h
    subst h
    rfl
  · intro c h
    subst h
    rfl
  · rw [hrun]
    by_cases hact : is_actionable req.goal
    · exact ⟨[planEvent req.goal], some backgroundEvents, by simp [hact]⟩
    · exact ⟨[doneSuccess], none, by simp [hact]⟩

/-- A valid request used to witness C1. -/
def reqGreet : RunRequest :=
  { runId := "rw1", goal := "good morning", context := .obj [], model := .null,
    maxSteps := none }

/-- Witness for C1 (amended) at a concrete valid request and a raised
advisory call. -/
theorem C1_amended_witness :
    ¬(reqGreet.runId = "" ∨ reqGreet.goal = "")
    ∧ (tw_run reqGreet BackendOutcome.exn ≠ RunResult.invalidRequest
      ∧ (BackendOutcome.exn = BackendOutcome.exn →
          step1Events BackendOutcome.exn = [Ev.assistant fallbackLine])
      ∧ (∀ c, BackendOutcome.exn = BackendOutcome.httpFail c →
          step1Events BackendOutcome.exn = [])
      ∧ ∃ rest bg, tw_run reqGreet BackendOutcome.exn
          = RunResult.accepted reqGreet.runId
              (step1Events BackendOutcome.exn ++ rest) bg) :=
  ⟨by simp [reqGreet], C1_amended reqGreet BackendOutcome.exn (by simp [reqGreet])⟩

/-- A valid non-actionable request whose advisory call failed with HTTP 503. -/
def reqHi : RunRequest :=
  { runId := "r2", goal := "hi", context := .obj [], model := .null,
    maxSteps := none }

/-- C2 counterexample: for a non-actionable goal whose advisory call
completed with a non-200 status, the enqueued events are `done(success)`
alone — not `assistant` followed by `done`. -/
theorem C2_counterexample :
    runEvents (tw_run reqHi (BackendOutcome.httpFail 503)) = [doneSuccess]
    ∧ ∀ s, runEvents (tw_run reqHi (BackendOutcome.httpFail 503))
        ≠ [Ev.assistant s, doneSuccess] := by
  have h : runEvents (tw_run reqHi (BackendOutcome.httpFail 503)) = [doneSuccess] := by
    rfl
  refine ⟨h, ?_⟩
  intro s hs
  rw [h] at hs
  simp [doneSuccess] at hs

/-- C2 (amended): a valid run with a non-actionable goal is terminal at the
chat-only path: its events are exactly the advisory step's events followed
by `done(success)` — a single `assistant` then `done` whenever the advisory
call returned 200 or raised, and `done` alone when it completed with a
non-200 status — no `plan` or `act` event is ever enqueued and no background
task is spawned. -/
theorem C2_amended (req : RunRequest) (outcome : BackendOutcome)
    (hv : ¬(req.runId = "" ∨ req.goal = ""))
    (hna : is_actionable req.goal = false) :
    tw_run req outcome
      = RunResult.accepted req.runId (step1Events outcome ++ [doneSuccess]) none
    ∧ ((∃ s, step1Events outcome = [Ev.assistant s])
        ∨ ((∃ c, outcome = BackendOutcome.httpFail c) ∧ step1Events outcome = []))
    ∧ ∀ e ∈ runEvents (tw_run req outcome),
        Ev.isPlan e = false ∧ Ev.isAct e = false := by
  have hrun : tw_run req outcome
      = RunResult.accepted req.runId (step1Events outcome ++ [doneSuccess]) none := by
    unfold tw_run
    rw [if_neg hv]
    simp [hna]
  refine ⟨hrun, step1Events_shape outcome, ?_⟩
  intro e he
  rw [hrun] at he
  simp only [runEvents, Option.getD, List.append_nil] at he
  rcases step1Events_shape outcome with ⟨s, hs⟩ | ⟨-, hs⟩ <;> rw [hs] at he
  · simp only [List.cons_append, List.nil_append, List.mem_cons,
      List.mem_singleton] at he
    rcases he with rfl | rfl | he
    · exact ⟨rfl, rfl⟩
    · exact ⟨rfl, rfl⟩
    · cases he
  · simp only [List.nil_append, List.mem_singleton] at he
    subst he
    exact ⟨rfl, rfl⟩

/-- A valid non-actionable request used to witness C2. -/
def reqThanks : RunRequest :=
  { runId := "rw2", goal := "thanks", context := .obj [], model := .null,
    maxSteps := none }

/-- Witness for C2 (amended) at a concrete valid non-actionable request and
a successful advisory call. -/
theorem C2_amended_witness :
    ¬(reqThanks.runId = "" ∨ reqThanks.goal = "")
    ∧ is_actionable reqThanks.goal = false
    ∧ (tw_run reqThanks (BackendOutcome.ok (JsonV.obj []))
        = RunResult.accepted reqThanks.runId
            (step1Events (BackendOutcome.ok (JsonV.obj [])) ++ [doneSuccess]) none
      ∧ ((∃ s, step1Events (BackendOutcome.ok (JsonV.obj [])) = [Ev.assistant s])
          ∨ ((∃ c, BackendOutcome.ok (JsonV.obj []) = BackendOutcome.httpFail c)
            ∧ step1Events (BackendOutcome.ok (JsonV.obj [])) = []))
      ∧ ∀ e ∈ runEvents (tw_run reqThanks (BackendOutcome.ok (JsonV.obj []))),
          Ev.isPlan e = false ∧ Ev.isAct e = false) :=
  ⟨by simp [reqThanks], rfl,
    C2_amended reqThanks (BackendOutcome.ok (JsonV.obj []))
      (by simp [reqThanks]) rfl⟩

/-! ### The actionable pipeline and tool-result interleavings -/

/-- The first component of an interleaving is an order-preserving
subsequence of the result. -/
theorem interleaved_sublist_left {a b c : List (List Ev)}
    (h : Interleaved a b c) : List.Sublist a c := by
  induction h with
  | nil => exact List.Sublist.refl []
  | left _ ih => exact List.Sublist.cons₂ _ ih
  | right _ ih => exact List.Sublist.cons _ ih

/-- Flattening preserves the subsequence relation on group lists. -/
theorem sublist_flatten {a c : List (List Ev)} (h : List.Sublist a c) :
    List.Sublist a.flatten c.flatten := by
  induction h with
  | slnil => exact List.Sublist.refl []
  | cons x _ ih =>
      simp only [List.flatten_cons]
      exact ih.trans (List.sublist_append_right x _)
  | cons₂ x _ ih =>
      simp only [List.flatten_cons]
      exact List.Sublist.append_left ih x

/-- Flattening singleton groups recovers the underlying events. -/
theorem flatten_map_singleton (l : List Ev) :
    (l.map (fun e => [e])).flatten = l := by
  induction l with
  | nil => rfl
  | cons e rest ih => simp [ih]

/-- A list interleaved with nothing is itself. -/
theorem interleaved_nil_right (l : List (List Ev)) : Interleaved l [] l := by
  induction l with
  | nil => exact .nil
  | cons g rest ih => exact .left ih

/-- The coordinator's own enqueues for an actionable goal, flattened. -/
theorem runGroups_flatten (g : String) (outcome : BackendOutcome) :
    (runGroups g outcome).flatten
      = step1Events outcome
        ++ [planEvent g, actStartEvent, Ev.assistant followupLine, doneSuccess] := by
  simp [runGroups, flatten_map_singleton]

/-- C6 (amended): for an actionable goal, every possible enqueue order
contains, in order, `plan`, `act(start)`, the follow-up `assistant`, and
`done(success)`; whenever the advisory call did not complete with a non-200
status, an `assistant` event additionally precedes the `plan`.  The
coordinator's own enqueues are exactly the flattened atomic groups, and an
injected `act(status=result)` occupies its arrival position in the
interleaving — it precedes `act(start)` exactly when it was processed
first. -/
theorem C6_amended (req : RunRequest) (outcome : BackendOutcome)
    (injs seq : List Ev)
    (hv : ¬(req.runId = "" ∨ req.goal = ""))
    (hact : is_actionable req.goal = true)
    (hseq : IsEnqueueSeq req.goal outcome injs seq) :
    runEvents (tw_run req outcome) = (runGroups req.goal outcome).flatten
    ∧ List.Sublist
        [planEvent req.goal, actStartEvent, Ev.assistant followupLine, doneSuccess]
        seq
    ∧ ((∀ c, outcome ≠ BackendOutcome.httpFail c) →
        ∃ s, List.Sublist
          [Ev.assistant s, planEvent req.goal, actStartEvent,
            Ev.assistant followupLine, doneSuccess] seq) := by
  obtain ⟨gs, hint, rfl⟩ := hseq
  have hflat : List.Sublist (runGroups req.goal outcome).flatten gs.flatten :=
    sublist_flatten (interleaved_sublist_left hint)
  refine ⟨?_, ?_, ?_⟩
  · have hrun : tw_run req outcome
        = RunResult.accepted req.runId
            (step1Events outcome ++ [planEvent req.goal]) (some backgroundEvents) := by
      unfold tw_run
      rw [if_neg hv]
      simp [hact]
    rw [hrun, runGroups_flatten]
    simp [runEvents, backgroundEvents]
  · refine List.Sublist.trans ?_ hflat
    rw [runGroups_flatten]
    exact List.sublist_append_right _ _
  · intro hnot
    rcases step1Events_shape outcome with ⟨s, hs⟩ | ⟨⟨c, hc⟩, -⟩
    · refine ⟨s, List.Sublist.trans ?_ hflat⟩
      rw [runGroups_flatten, hs]
      simp only [List.singleton_append]
      exact List.Sublist.refl _
    · exact absurd hc (hnot c)

/-- The `act(status=result)` event of a tool-result report for the stub
tool, carrying the default success marker. -/
def injResultEvent : Ev := .act "result" chosen_tool okMarker

/-- A real enqueue order in which the tool-result injection was processed
while the coordinator was still awaiting the advisory call. -/
def cexSeq : List Ev :=
  injResultEvent :: (runGroups "create a room" (BackendOutcome.httpFail 500)).flatten

/-- C6 counterexample: a legitimate interleaving for the actionable goal
"create a room" whose advisory call completed with HTTP 500 and whose
tool-result injection arrived before the background loop ran.  The queue
then lacks the claimed assistant-before-plan subsequence, and the injected
`act(status=result)` precedes `act(status=start)`. -/
theorem C6_counterexample :
    IsEnqueueSeq "create a room" (BackendOutcome.httpFail 500) [injResultEvent] cexSeq
    ∧ is_actionable "create a room" = true
    ∧ (∀ s1 s2, ¬ List.Sublist
        [Ev.assistant s1, planEvent "create a room", actStartEvent,
          Ev.assistant s2, doneSuccess] cexSeq)
    ∧ ¬(∀ i j : Nat, cexSeq[i]? = some injResultEvent →
          cexSeq[j]? = some actStartEvent → j < i) := by
  refine ⟨?_, by decide, ?_, ?_⟩
  · exact ⟨[injResultEvent] :: runGroups "create a room" (BackendOutcome.httpFail 500),
      .right (interleaved_nil_right _), rfl⟩
  · intro s1 s2 h
    have heq := h.eq_of_length (by rfl)
    simp [cexSeq, runGroups, step1Events, injResultEvent, planEvent,
      actStartEvent, doneSuccess] at heq
  · intro hall
    have h2 := hall 0 2 rfl rfl
    exact absurd h2 (by decide)

/-- A valid actionable request used to witness C6. -/
def reqCreate : RunRequest :=
  { runId := "r6", goal := "create a room", context := .obj [], model := .null,
    maxSteps := none }

/-- Witness for C6 (amended) at a concrete actionable request, a raised
advisory call, and the injection-free interleaving. -/
theorem C6_amended_witness :
    ¬(reqCreate.runId = "" ∨ reqCreate.goal = "")
    ∧ is_actionable reqCreate.goal = true
    ∧ IsEnqueueSeq reqCreate.goal BackendOutcome.exn []
        (runGroups reqCreate.goal BackendOutcome.exn).flatten
    ∧ (runEvents (tw_run reqCreate BackendOutcome.exn)
          = (runGroups reqCreate.goal BackendOutcome.exn).flatten
      ∧ List.Sublist
          [planEvent reqCreate.goal, actStartEvent, Ev.assistant followupLine,
            doneSuccess]
          (runGroups reqCreate.goal BackendOutcome.exn).flatten
      ∧ ((∀ c, BackendOutcome.exn ≠ BackendOutcome.httpFail c) →
          ∃ s, List.Sublist
            [Ev.assistant s, planEvent reqCreate.goal, actStartEvent,
              Ev.assistant followupLine, doneSuccess]
            (runGroups reqCreate.goal BackendOutcome.exn).flatten)) :=
  ⟨by simp [reqCreate], by decide,
    ⟨runGroups reqCreate.goal BackendOutcome.exn, interleaved_nil_right _, rfl⟩,
    C6_amended reqCreate BackendOutcome.exn []
      (runGroups reqCreate.goal BackendOutcome.exn).flatten
      (by simp [reqCreate]) (by decide)
      ⟨runGroups reqCreate.goal BackendOutcome.exn, interleaved_nil_right _, rfl⟩⟩

/-! ### Validation, the tool-call gateway, maxSteps, and the result sink -/

/-- C7: a start-run request with a missing or empty `runId` or `goal` fails
synchronously with the client error and enqueues nothing — the queue map is
left unchanged. -/
theorem C7_invalid_request (queues : String → List Ev) (req : RunRequest)
    (outcome : BackendOutcome) (h : req.runId = "" ∨ req.goal = "") :
    tw_run req outcome = RunResult.invalidRequest
    ∧ runEvents (tw_run req outcome) = []
    ∧ tw_run_queues queues req outcome = queues := by
  have h1 : tw_run req outcome = RunResult.invalidRequest := by
    unfold tw_run
    rw [if_pos h]
  refine ⟨h1, by rw [h1]; rfl, ?_⟩
  unfold tw_run_queues
  rw [h1]

/-- A request with a missing goal. -/
def reqNoGoal : RunRequest :=
  { runId := "r7", goal := "", context := .obj [], model := .null,
    maxSteps := none }

/-- Witness for C7 at a concrete request with an empty goal. -/
theorem C7_invalid_request_witness :
    (reqNoGoal.runId = "" ∨ reqNoGoal.goal = "")
    ∧ (tw_run reqNoGoal BackendOutcome.exn = RunResult.invalidRequest
      ∧ runEvents (tw_run reqNoGoal BackendOutcome.exn) = []
      ∧ tw_run_queues (fun _ => []) reqNoGoal BackendOutcome.exn = fun _ => []) :=
  ⟨Or.inr rfl, C7_invalid_request (fun _ => []) reqNoGoal BackendOutcome.exn (Or.inr rfl)⟩

/-- The downstream executor's raw reply bytes for `b"{\x22ok\x22:true}"`. -/
def okBodyBytes : List Nat := [123, 34, 111, 107, 34, 58, 116, 114, 117, 101, 125]

/-- C8 (code bug): the gateway never relays the downstream body.  The
handler wraps the raw bytes of `resp.aread()` in `JSONResponse`, whose
render calls `json.dumps` on them; bytes are not JSON serialisable, so every
well-formed tool call raises `TypeError` and surfaces as an internal server
error instead of the downstream status and body.  Validation of the missing
name is unaffected. -/
theorem C8_gateway_bug :
    tw_tool_call "geometry.createRoom" 200 okBodyBytes = ToolCallOutcome.internalError
    ∧ (∀ st c, tw_tool_call "geometry.createRoom" 200 okBodyBytes
        ≠ ToolCallOutcome.response st c)
    ∧ tw_tool_call "" 200 okBodyBytes = ToolCallOutcome.invalidRequest := by
  have hser : json_serializable (PyVal.pyBytes okBodyBytes) = false := by
    simp [json_serializable]
  have h1 : tw_tool_call "geometry.createRoom" 200 okBodyBytes
      = ToolCallOutcome.internalError := by
    simp [tw_tool_call, JSONResponse_body, hser]
  refine ⟨h1, ?_, rfl⟩
  intro st c h
  rw [h1] at h
  simp at h

/-- C9: `maxSteps` has no influence on any observable behaviour — two
start-run requests identical except for its value (or absence) produce the
same result, the same event sequence, and the same queue map. -/
theorem C9_maxSteps_inert (rid g : String) (ctx mdl : JsonV)
    (ms1 ms2 : Option JsonV) (outcome : BackendOutcome)
    (queues : String → List Ev) :
    tw_run (RunRequest.mk rid g ctx mdl ms1) outcome
      = tw_run (RunRequest.mk rid g ctx mdl ms2) outcome
    ∧ runEvents (tw_run (RunRequest.mk rid g ctx mdl ms1) outcome)
      = runEvents (tw_run (RunRequest.mk rid g ctx mdl ms2) outcome)
    ∧ tw_run_queues queues (RunRequest.mk rid g ctx mdl ms1) outcome
      = tw_run_queues queues (RunRequest.mk rid g ctx mdl ms2) outcome :=
  ⟨rfl, rfl, rfl⟩

/-- C10: the tool-result sink substitutes the default success marker
`{"ok": true}` for every falsy `result` — absent (`None`), `false`, `0`,
`""`, `{}` or `[]` — and passes every truthy `result` through unchanged. -/
theorem C10_result_default (rid tool : String) (result : JsonV)
    (h : ¬(rid = "" ∨ tool = "")) :
    (pyTruthy result = false →
      tw_tool_result rid tool result
        = ToolResultOutcome.enqueued (Ev.act "result" tool okMarker))
    ∧ (pyTruthy result = true →
      tw_tool_result rid tool result
        = ToolResultOutcome.enqueued (Ev.act "result" tool result))
    ∧ pyTruthy JsonV.null = false
    ∧ pyTruthy (JsonV.bool false) = false
    ∧ pyTruthy (JsonV.num 0) = false
    ∧ pyTruthy (JsonV.str "") = false
    ∧ pyTruthy (JsonV.obj []) = false
    ∧ pyTruthy (JsonV.arr []) = false := by
  refine ⟨?_, ?_, rfl, rfl, by simp [pyTruthy], rfl, rfl, rfl⟩
  · intro hf
    unfold tw_tool_result
    rw [if_neg h]
    simp [pyOr, hf]
  · intro ht
    unfold tw_tool_result
    rw [if_neg h]
    simp [pyOr, ht]

/-- Witness for C10 at a concrete report whose `result` is `null`. -/
theorem C10_result_default_witness :
    ¬(("r10" : String) = "" ∨ chosen_tool = "")
    ∧ ((pyTruthy JsonV.null = false →
        tw_tool_result "r10" chosen_tool JsonV.null
          = ToolResultOutcome.enqueued (Ev.act "result" chosen_tool okMarker))
      ∧ (pyTruthy JsonV.null = true →
        tw_tool_result "r10" chosen_tool JsonV.null
          = ToolResultOutcome.enqueued (Ev.act "result" chosen_tool JsonV.null))
      ∧ pyTruthy JsonV.null = false
      ∧ pyTruthy (JsonV.bool false) = false
      ∧ pyTruthy (JsonV.num 0) = false
      ∧ pyTruthy (JsonV.str "") = false
      ∧ pyTruthy (JsonV.obj []) = false
      ∧ pyTruthy (JsonV.arr []) = false) :=
  ⟨by simp [chosen_tool],
    C10_result_default "r10" chosen_tool JsonV.null (by simp [chosen_tool])⟩

end StudioSix
